import Mathlib

/-!
Verification of sqlfluff rule L027 (src/sqlfluff/rules/L027.py):
unqualified-column-reference detection for SELECT statements that
reference more than one table or view.

The Python code is shallowly embedded below.  Segment objects are
modelled as immutable records; the position marker that distinguishes
two occurrences of the same text in the parse tree is modelled by the
field "pos_marker", so that equality of two "BaseSegment" values is
equality of type/raw/position, exactly the notion the Python membership
test "r not in c.column_reference_segments" uses.
-/

namespace L027

/-- Model of the sqlfluff "BaseSegment" as consumed by rule L027: the raw
source text of the reference, the result of the upstream
"qualification()" call (a string, normally "qualified" or
"unqualified"), and a position marker giving distinct occurrences
distinct identities. -/
structure BaseSegment where
  pos_marker : Nat
  raw : String
  qualification : String
deriving DecidableEq

/-- Model of "AliasInfo" restricted to the field L027 reads: the
reference string of a table alias. -/
structure AliasInfo where
  ref_str : String
deriving DecidableEq

/-- Model of "ColumnAliasInfo" restricted to the fields L027 reads: the
alias identifier name and the column-reference segments of the defining
expression of the alias. -/
structure ColumnAliasInfo where
  alias_identifier_name : String
  column_reference_segments : List BaseSegment
deriving DecidableEq

/-- Model of "LintResult" restricted to the fields L027 sets: the anchor
segment and the description string. -/
structure LintResult where
  anchor : BaseSegment
  description : String
deriving DecidableEq

/-- The apostrophe character, U+0027. -/
def squote : Char := Char.ofNat 39

/-- Lower-case hexadecimal digit, as produced by Python string repr
escapes. -/
def pyHexDigit (n : Nat) : Char :=
  if n < 10 then Char.ofNat (48 + n) else Char.ofNat (87 + n)

/-- How Python str.__repr__ renders one character inside a literal
quoted by "quote": backslash and the quote character are
backslash-escaped, newline / carriage return / tab use their mnemonic
escapes, other control characters (code < 32 or 127) use a \x hex
escape, and every other character is rendered literally.  (Python also
hex-escapes unprintable characters above U+007F; the raws considered
here stay in the ASCII range, where this model is exact.) -/
def pyEscapeChar (quote : Char) (c : Char) : String :=
  if c = '\\' then "\\\\"
  else if c = quote then String.mk ['\\', quote]
  else if c = '\n' then "\\n"
  else if c = '\r' then "\\r"
  else if c = '\t' then "\\t"
  else if c.toNat < 32 || c.toNat == 127 then
    String.mk ['\\', 'x', pyHexDigit (c.toNat / 16), pyHexDigit (c.toNat % 16)]
  else String.singleton c

/-- Escape a list of characters for Python string repr. -/
def pyEscaped (quote : Char) : List Char → String
  | [] => ""
  | c :: cs => pyEscapeChar quote c ++ pyEscaped quote cs

/-- Model of Python str.__repr__, as invoked by the "!r" conversion in
the f-string of L027: the literal is quoted with an apostrophe unless
the string contains an apostrophe and no double quote, in which case it
is quoted with a double quote; the quote character and escapes follow
"pyEscapeChar". -/
def pyRepr (s : String) : String :=
  let quote := if s.data.contains squote && !(s.data.contains '"') then '"' else squote
  String.singleton quote ++ pyEscaped quote s.data ++ String.singleton quote

/-- The description string built by L027 for a failing reference:
f-string "Unqualified reference {r.raw!r} found in " followed by the
adjacent literal "select with more than one referenced table/view.". -/
def violation_description (raw : String) : String :=
  "Unqualified reference " ++ pyRepr raw ++
    " found in select with more than one referenced table/view."

/-- The description the specification predicts for a failing reference:
the raw text enclosed in single quotes between the two fixed literals.
Stated from the words of the spec, for comparison with
"violation_description", which is read off the code. -/
def spec_description (raw : String) : String :=
  "Unqualified reference " ++ String.singleton squote ++ raw ++
    String.singleton squote ++
    " found in select with more than one referenced table/view."

/-- Embedding of Rule_L027._is_qualified_reference: true when the
reference is already syntactically qualified, or its raw text is a
column alias name, or a USING column, or (under the redshift dialect) a
table alias name. -/
def is_qualified_reference (reference : BaseSegment)
    (table_alias_names col_alias_names using_cols : List String)
    (dialect_name : Option String) : Bool :=
  (reference.qualification != "unqualified")
    || col_alias_names.contains reference.raw
    || using_cols.contains reference.raw
    || (dialect_name == some "redshift" && table_alias_names.contains reference.raw)

/-- Embedding of the list comprehension in _lint_references_and_aliases
that, for the reference r currently scanned, keeps the alias identifier
name of every column alias whose column-reference segments do not
contain r itself. -/
def col_alias_names_for (r : BaseSegment) (col_aliases : List ColumnAliasInfo) :
    List String :=
  (col_aliases.filter fun c => !(c.column_reference_segments.contains r)).map
    ColumnAliasInfo.alias_identifier_name

/-- The loop body of _lint_references_and_aliases: one pass over the
references, appending a LintResult anchored at each reference that
_is_qualified_reference rejects.  The Python loop-and-append is
expressed as a filterMap, which builds the same list in the same
order. -/
def scan_violations (table_alias_names : List String)
    (references : List BaseSegment) (col_aliases : List ColumnAliasInfo)
    (using_cols : List String) (dialect_name : Option String) :
    List LintResult :=
  references.filterMap fun r =>
    if is_qualified_reference r table_alias_names
        (col_alias_names_for r col_aliases) using_cols dialect_name then
      none
    else
      some ⟨r, violation_description r.raw⟩

/-- Embedding of Rule_L027._lint_references_and_aliases: return None
when there is at most one table alias, otherwise collect the violations
over all references and return them, with "violation_buff or None"
turning an empty buffer into None. -/
def lint_references_and_aliases (table_aliases : List AliasInfo)
    (standalone_aliases : List String) (references : List BaseSegment)
    (col_aliases : List ColumnAliasInfo) (using_cols : List String)
    (dialect_name : Option String) (parent_select : Option BaseSegment) :
    Option (List LintResult) :=
  if table_aliases.length ≤ 1 then
    none
  else
    let table_alias_names := table_aliases.map AliasInfo.ref_str
    let violation_buff :=
      scan_violations table_alias_names references col_aliases using_cols
        dialect_name
    if violation_buff = [] then none else some violation_buff

/-! Helper lemmas about the embedded definitions. -/

/-- Propositional reading of the boolean disjunction in
_is_qualified_reference. -/
lemma is_qualified_iff (r : BaseSegment) (tan can uc : List String)
    (dn : Option String) :
    is_qualified_reference r tan can uc dn = true ↔
      (r.qualification ≠ "unqualified" ∨ r.raw ∈ can ∨ r.raw ∈ uc ∨
        (dn = some "redshift" ∧ r.raw ∈ tan)) := by
  simp [is_qualified_reference, or_assoc]

/-- Membership in the violation buffer: exactly the references rejected
by the classifier, each wrapped in its LintResult. -/
lemma mem_scan_violations {tan uc : List String} {refs : List BaseSegment}
    {ca : List ColumnAliasInfo} {dn : Option String} {v : LintResult} :
    v ∈ scan_violations tan refs ca uc dn ↔
      ∃ r ∈ refs,
        is_qualified_reference r tan (col_alias_names_for r ca) uc dn = false ∧
        v = ⟨r, violation_description r.raw⟩ := by
  simp only [scan_violations, List.mem_filterMap]
  constructor
  · rintro ⟨r, hr, hv⟩
    by_cases hq : is_qualified_reference r tan (col_alias_names_for r ca) uc dn
    · simp [hq] at hv
    · simp only [hq, if_false] at hv
      exact ⟨r, hr, by simpa using hq, (Option.some_injective _ hv).symm⟩
  · rintro ⟨r, hr, hq, rfl⟩
    exact ⟨r, hr, by simp [hq]⟩

/-- The violation buffer is the in-order image of the failing
references. -/
lemma scan_violations_eq_filter (tan uc : List String)
    (refs : List BaseSegment) (ca : List ColumnAliasInfo)
    (dn : Option String) :
    scan_violations tan refs ca uc dn =
      (refs.filter fun r =>
          !is_qualified_reference r tan (col_alias_names_for r ca) uc dn).map
        fun r => ⟨r, violation_description r.raw⟩ := by
  induction refs with
  | nil => rfl
  | cons r rs ih =>
    by_cases hq : is_qualified_reference r tan (col_alias_names_for r ca) uc dn
    · simpa [scan_violations, List.filterMap_cons, List.filter_cons, hq]
        using ih
    · simpa [scan_violations, List.filterMap_cons, List.filter_cons, hq]
        using ih

/-- Once past the table-count gate, the scanner result is the violation
buffer, with the empty buffer rendered as none. -/
lemma lint_past_gate (ta : List AliasInfo) (sa : List String)
    (refs : List BaseSegment) (ca : List ColumnAliasInfo)
    (uc : List String) (dn : Option String) (ps : Option BaseSegment)
    (hgate : 1 < ta.length) :
    lint_references_and_aliases ta sa refs ca uc dn ps =
      if scan_violations (ta.map AliasInfo.ref_str) refs ca uc dn = [] then
        none
      else
        some (scan_violations (ta.map AliasInfo.ref_str) refs ca uc dn) := by
  have h : ¬ ta.length ≤ 1 := by omega
  simp [lint_references_and_aliases, h]

/-- A reference rejected by the classifier is reported: the scanner
returns a list containing a violation anchored at it. -/
lemma lint_reports {ta : List AliasInfo} {sa : List String}
    {refs : List BaseSegment} {ca : List ColumnAliasInfo}
    {uc : List String} {dn : Option String} {ps : Option BaseSegment}
    {r : BaseSegment} (hgate : 1 < ta.length) (hr : r ∈ refs)
    (hq : is_qualified_reference r (ta.map AliasInfo.ref_str)
      (col_alias_names_for r ca) uc dn = false) :
    ∃ l, lint_references_and_aliases ta sa refs ca uc dn ps = some l ∧
      (⟨r, violation_description r.raw⟩ : LintResult) ∈ l := by
  have hmem : (⟨r, violation_description r.raw⟩ : LintResult) ∈
      scan_violations (ta.map AliasInfo.ref_str) refs ca uc dn :=
    mem_scan_violations.mpr ⟨r, hr, hq, rfl⟩
  have hne : scan_violations (ta.map AliasInfo.ref_str) refs ca uc dn ≠ [] :=
    List.ne_nil_of_mem hmem
  refine ⟨scan_violations (ta.map AliasInfo.ref_str) refs ca uc dn, ?_, hmem⟩
  rw [lint_past_gate ta sa refs ca uc dn ps hgate, if_neg hne]

/-- A reference accepted by the classifier anchors no violation in any
scanner result. -/
lemma lint_not_anchor {ta : List AliasInfo} {sa : List String}
    {refs : List BaseSegment} {ca : List ColumnAliasInfo}
    {uc : List String} {dn : Option String} {ps : Option BaseSegment}
    {r : BaseSegment}
    (hq : is_qualified_reference r (ta.map AliasInfo.ref_str)
      (col_alias_names_for r ca) uc dn = true) :
    ∀ l, lint_references_and_aliases ta sa refs ca uc dn ps = some l →
      ∀ v ∈ l, v.anchor ≠ r := by
  intro l hl v hv
  by_cases hgate : ta.length ≤ 1
  · simp [lint_references_and_aliases, hgate] at hl
  · rw [lint_past_gate ta sa refs ca uc dn ps (by omega)] at hl
    by_cases hz : scan_violations (ta.map AliasInfo.ref_str) refs ca uc dn = []
    · simp [hz] at hl
    · rw [if_neg hz] at hl
      obtain ⟨r', _, hq', rfl⟩ :=
        mem_scan_violations.mp ((Option.some_injective _ hl) ▸ hv)
      intro hanchor
      rw [show r' = r from hanchor] at hq'
      rw [hq] at hq'
      exact Bool.noConfusion hq'

/-! The claims. -/

/-- C1: under the upstream invariant that the qualification status is
the string "qualified" or the string "unqualified", the classifier
returns true exactly when one of the four exception conditions holds
(syntactically qualified, raw text among the filtered column alias
names, raw text among the USING columns, or redshift dialect with raw
text among the table alias names); a scanned reference for which none
of the four holds is reported. -/
theorem claim_C1 (r : BaseSegment)
    (hs : r.qualification = "qualified" ∨ r.qualification = "unqualified") :
    (∀ tan can uc dn,
      is_qualified_reference r tan can uc dn = true ↔
        (r.qualification = "qualified" ∨ r.raw ∈ can ∨ r.raw ∈ uc ∨
          (dn = some "redshift" ∧ r.raw ∈ tan))) ∧
    (∀ ta sa refs ca uc dn ps, 1 < (ta : List AliasInfo).length →
      r ∈ refs →
      ¬(r.qualification = "qualified" ∨
          r.raw ∈ col_alias_names_for r ca ∨ r.raw ∈ uc ∨
          (dn = some "redshift" ∧ r.raw ∈ ta.map AliasInfo.ref_str)) →
      ∃ l, lint_references_and_aliases ta sa refs ca uc dn ps = some l ∧
        ∃ v ∈ l, v.anchor = r) := by
  have hq : (r.qualification ≠ "unqualified") ↔
      (r.qualification = "qualified") := by
    rcases hs with h | h <;> rw [h] <;> simp
  have key : ∀ tan can uc dn,
      is_qualified_reference r tan can uc dn = true ↔
        (r.qualification = "qualified" ∨ r.raw ∈ can ∨ r.raw ∈ uc ∨
          (dn = some "redshift" ∧ r.raw ∈ tan)) := by
    intro tan can uc dn
    rw [is_qualified_iff, hq]
  refine ⟨key, ?_⟩
  intro ta sa refs ca uc dn ps hgate hr hfour
  have hfalse : is_qualified_reference r (ta.map AliasInfo.ref_str)
      (col_alias_names_for r ca) uc dn = false := by
    rcases h : is_qualified_reference r (ta.map AliasInfo.ref_str)
        (col_alias_names_for r ca) uc dn with _ | _
    · rfl
    · exact absurd ((key _ _ _ _).mp h) hfour
  obtain ⟨l, hl, hm⟩ := lint_reports hgate hr hfalse
  exact ⟨l, hl, ⟨r, violation_description r.raw⟩, hm, rfl⟩

/-- Witness for C1 at a concrete input: an unqualified reference whose
raw text is a USING column is classified as qualified. -/
theorem claim_C1_witness :
    is_qualified_reference ⟨0, "id", "unqualified"⟩ [] [] ["id"] none =
      true :=
  ((claim_C1 ⟨0, "id", "unqualified"⟩ (Or.inr rfl)).1 [] [] ["id"]
    none).mpr (Or.inr (Or.inr (Or.inl (by decide))))

/-- C2: the column alias names passed to the classifier for a scanned
reference r are exactly the identifiers of the column aliases whose own
reference segments do not contain r itself; an alias whose segments
contain only references distinct from r -- even one with the same raw
text -- is kept, and when the raw text of r equals the name of such an
alias, the classifier accepts r. -/
theorem claim_C2 (r : BaseSegment) (ca : List ColumnAliasInfo) :
    (∀ a, a ∈ col_alias_names_for r ca ↔
        ∃ c ∈ ca, r ∉ c.column_reference_segments ∧
          c.alias_identifier_name = a) ∧
    (∀ c ∈ ca, (∀ s ∈ c.column_reference_segments, s ≠ r) →
        c.alias_identifier_name ∈ col_alias_names_for r ca) ∧
    (∀ c ∈ ca, r ∉ c.column_reference_segments →
        r.raw = c.alias_identifier_name →
        ∀ tan uc dn,
          is_qualified_reference r tan (col_alias_names_for r ca) uc dn =
            true) := by
  have part1 : ∀ a, a ∈ col_alias_names_for r ca ↔
      ∃ c ∈ ca, r ∉ c.column_reference_segments ∧
        c.alias_identifier_name = a := by
    intro a
    simp [col_alias_names_for, List.mem_map, List.mem_filter, and_assoc]
  refine ⟨part1, ?_, ?_⟩
  · intro c hc hall
    exact (part1 _).mpr ⟨c, hc, fun hm => hall r hm rfl, rfl⟩
  · intro c hc hnotmem hraw tan uc dn
    exact (is_qualified_iff r tan _ uc dn).mpr
      (Or.inr (Or.inl ((part1 r.raw).mpr ⟨c, hc, hnotmem, hraw.symm⟩)))

/-- Witness for C2 at a concrete input: the alias "a" is defined by an
expression containing a reference with raw text "a" but a different
position marker than the scanned reference, so the alias name survives
the filter and qualifies the scanned reference. -/
theorem claim_C2_witness :
    ("a" ∈ col_alias_names_for ⟨0, "a", "unqualified"⟩
        [⟨"a", [⟨1, "a", "unqualified"⟩]⟩]) ∧
    is_qualified_reference ⟨0, "a", "unqualified"⟩ []
        (col_alias_names_for ⟨0, "a", "unqualified"⟩
          [⟨"a", [⟨1, "a", "unqualified"⟩]⟩]) [] none = true := by
  have h := claim_C2 ⟨0, "a", "unqualified"⟩ [⟨"a", [⟨1, "a", "unqualified"⟩]⟩]
  exact ⟨h.2.1 ⟨"a", [⟨1, "a", "unqualified"⟩]⟩ (by simp) (by decide),
    h.2.2 ⟨"a", [⟨1, "a", "unqualified"⟩]⟩ (by simp) (by decide) rfl [] [] none⟩

/-- C3: with at most one table alias the scanner returns none at once,
whatever the references, column aliases, USING columns and dialect
are. -/
theorem claim_C3 (ta : List AliasInfo) (sa : List String)
    (refs : List BaseSegment) (ca : List ColumnAliasInfo) (uc : List String)
    (dn : Option String) (ps : Option BaseSegment) (h : ta.length ≤ 1) :
    lint_references_and_aliases ta sa refs ca uc dn ps = none := by
  simp [lint_references_and_aliases, h]

/-- Witness for C3 at a concrete input: one table alias, one
unqualified reference, still no violations. -/
theorem claim_C3_witness :
    lint_references_and_aliases [⟨"t"⟩] [] [⟨0, "a", "unqualified"⟩] [] []
      (some "ansi") none = none :=
  claim_C3 [⟨"t"⟩] [] [⟨0, "a", "unqualified"⟩] [] [] (some "ansi") none
    (by decide)

/-- C4: a scanned unqualified reference whose raw text is a table alias
name but neither a filtered column alias name nor a USING column is not
flagged under the redshift dialect, and is flagged under every other
dialect name, the unset dialect included. -/
theorem claim_C4 (ta : List AliasInfo) (sa : List String)
    (refs : List BaseSegment) (ca : List ColumnAliasInfo) (uc : List String)
    (ps : Option BaseSegment) (r : BaseSegment)
    (hgate : 1 < ta.length) (hr : r ∈ refs)
    (hu : r.qualification = "unqualified")
    (htab : r.raw ∈ ta.map AliasInfo.ref_str)
    (hca : r.raw ∉ col_alias_names_for r ca)
    (huc : r.raw ∉ uc) :
    (∀ l, lint_references_and_aliases ta sa refs ca uc (some "redshift") ps =
        some l → ∀ v ∈ l, v.anchor ≠ r) ∧
    (∀ dn, dn ≠ some "redshift" →
      ∃ l, lint_references_and_aliases ta sa refs ca uc dn ps = some l ∧
        ∃ v ∈ l, v.anchor = r) := by
  constructor
  · exact lint_not_anchor
      ((is_qualified_iff r (ta.map AliasInfo.ref_str)
          (col_alias_names_for r ca) uc (some "redshift")).mpr
        (Or.inr (Or.inr (Or.inr ⟨rfl, htab⟩))))
  · intro dn hdn
    have hfalse : is_qualified_reference r (ta.map AliasInfo.ref_str)
        (col_alias_names_for r ca) uc dn = false := by
      rcases hq : is_qualified_reference r (ta.map AliasInfo.ref_str)
          (col_alias_names_for r ca) uc dn with _ | _
      · rfl
      · rcases (is_qualified_iff r _ _ _ _).mp hq with h | h | h | ⟨h1, _⟩
        · exact absurd hu h
        · exact absurd h hca
        · exact absurd h huc
        · exact absurd h1 hdn
    obtain ⟨l, hl, hm⟩ := lint_reports hgate hr hfalse
    exact ⟨l, hl, ⟨r, violation_description r.raw⟩, hm, rfl⟩

/-- Witness for C4 at a concrete input: the unqualified reference "t1"
names a table alias; under the ansi dialect it is flagged. -/
theorem claim_C4_witness :
    ∃ l, lint_references_and_aliases [⟨"t1"⟩, ⟨"t2"⟩] []
        [⟨0, "t1", "unqualified"⟩] [] [] (some "ansi") none = some l ∧
      ∃ v ∈ l, v.anchor = ⟨0, "t1", "unqualified"⟩ :=
  (claim_C4 [⟨"t1"⟩, ⟨"t2"⟩] [] [⟨0, "t1", "unqualified"⟩] [] [] none
      ⟨0, "t1", "unqualified"⟩ (by decide) (by simp) rfl (by decide)
      (by decide) (by decide)).2 (some "ansi") (by decide)

/-- C5: with two table sources, a scanned unqualified reference whose
raw text is a USING column anchors no violation, while a scanned
unqualified reference covered by no exception is flagged. -/
theorem claim_C5 (ta : List AliasInfo) (sa : List String)
    (refs : List BaseSegment) (ca : List ColumnAliasInfo) (uc : List String)
    (dn : Option String) (ps : Option BaseSegment) (r1 r2 : BaseSegment)
    (hta : ta.length = 2)
    (h1mem : r1 ∈ refs) (h1uc : r1.raw ∈ uc)
    (h2mem : r2 ∈ refs) (h2q : r2.qualification = "unqualified")
    (h2uc : r2.raw ∉ uc) (h2ca : r2.raw ∉ col_alias_names_for r2 ca)
    (h2tab : ¬(dn = some "redshift" ∧ r2.raw ∈ ta.map AliasInfo.ref_str)) :
    (∀ l, lint_references_and_aliases ta sa refs ca uc dn ps = some l →
        ∀ v ∈ l, v.anchor ≠ r1) ∧
    ∃ l, lint_references_and_aliases ta sa refs ca uc dn ps = some l ∧
      ∃ v ∈ l, v.anchor = r2 := by
  have hgate : 1 < ta.length := by omega
  constructor
  · exact lint_not_anchor
      ((is_qualified_iff r1 (ta.map AliasInfo.ref_str)
          (col_alias_names_for r1 ca) uc dn).mpr
        (Or.inr (Or.inr (Or.inl h1uc))))
  · have hfalse : is_qualified_reference r2 (ta.map AliasInfo.ref_str)
        (col_alias_names_for r2 ca) uc dn = false := by
      rcases hq : is_qualified_reference r2 (ta.map AliasInfo.ref_str)
          (col_alias_names_for r2 ca) uc dn with _ | _
      · rfl
      · rcases (is_qualified_iff r2 _ _ _ _).mp hq with h | h | h | h
        · exact absurd h2q h
        · exact absurd h h2ca
        · exact absurd h h2uc
        · exact absurd h h2tab
    obtain ⟨l, hl, hm⟩ := lint_reports hgate h2mem hfalse
    exact ⟨l, hl, ⟨r2, violation_description r2.raw⟩, hm, rfl⟩

/-- Witness for C5 at a concrete input: USING declares "id"; the
unqualified reference "x" is flagged while "id" is not. -/
theorem claim_C5_witness :
    ∃ l, lint_references_and_aliases [⟨"t1"⟩, ⟨"t2"⟩] []
        [⟨0, "id", "unqualified"⟩, ⟨1, "x", "unqualified"⟩] [] ["id"] none
        none = some l ∧
      ∃ v ∈ l, v.anchor = ⟨1, "x", "unqualified"⟩ :=
  (claim_C5 [⟨"t1"⟩, ⟨"t2"⟩] []
      [⟨0, "id", "unqualified"⟩, ⟨1, "x", "unqualified"⟩] [] ["id"] none none
      ⟨0, "id", "unqualified"⟩ ⟨1, "x", "unqualified"⟩ rfl (by simp)
      (by decide) (by simp) rfl (by decide) (by decide) (by decide)).2

/-- C7: any violation list the scanner returns is the in-order image of
the failing references, so the violations appear in exactly the order
the references were supplied, one per failing reference. -/
theorem claim_C7 (ta : List AliasInfo) (sa : List String)
    (refs : List BaseSegment) (ca : List ColumnAliasInfo) (uc : List String)
    (dn : Option String) (ps : Option BaseSegment) (l : List LintResult)
    (hl : lint_references_and_aliases ta sa refs ca uc dn ps = some l) :
    l = (refs.filter fun r =>
          !is_qualified_reference r (ta.map AliasInfo.ref_str)
            (col_alias_names_for r ca) uc dn).map
        (fun r => ⟨r, violation_description r.raw⟩) ∧
    l.map LintResult.anchor = refs.filter fun r =>
      !is_qualified_reference r (ta.map AliasInfo.ref_str)
        (col_alias_names_for r ca) uc dn := by
  by_cases hgate : ta.length ≤ 1
  · simp [lint_references_and_aliases, hgate] at hl
  · rw [lint_past_gate ta sa refs ca uc dn ps (by omega)] at hl
    by_cases hz :
        scan_violations (ta.map AliasInfo.ref_str) refs ca uc dn = []
    · simp [hz] at hl
    · rw [if_neg hz] at hl
      have hleq := (Option.some_injective _ hl).symm
      rw [scan_violations_eq_filter] at hleq
      refine ⟨hleq, ?_⟩
      rw [hleq, List.map_map]
      exact List.map_id' _

/-- Witness for C7 at a concrete input: of the two supplied references
the qualified one is skipped and the unqualified one is reported, in
supply order. -/
theorem claim_C7_witness :
    ([⟨⟨1, "b", "unqualified"⟩, violation_description "b"⟩] :
        List LintResult) =
      (([⟨0, "a", "qualified"⟩, ⟨1, "b", "unqualified"⟩] :
            List BaseSegment).filter fun r =>
          !is_qualified_reference r
            (([⟨"t1"⟩, ⟨"t2"⟩] : List AliasInfo).map AliasInfo.ref_str)
            (col_alias_names_for r []) [] none).map
        (fun r => ⟨r, violation_description r.raw⟩) :=
  (claim_C7 [⟨"t1"⟩, ⟨"t2"⟩] []
      [⟨0, "a", "qualified"⟩, ⟨1, "b", "unqualified"⟩] [] [] none none
      [⟨⟨1, "b", "unqualified"⟩, violation_description "b"⟩] rfl).1

/-- C9: the scanner result does not depend on the standalone_aliases
argument or on the parent_select argument. -/
theorem claim_C9 (ta : List AliasInfo) (sa1 sa2 : List String)
    (refs : List BaseSegment) (ca : List ColumnAliasInfo) (uc : List String)
    (dn : Option String) (ps1 ps2 : Option BaseSegment) :
    lint_references_and_aliases ta sa1 refs ca uc dn ps1 =
      lint_references_and_aliases ta sa2 refs ca uc dn ps2 := rfl

/-- A printable ASCII character other than the apostrophe and the
backslash escapes to itself. -/
lemma pyEscapeChar_plain (c : Char) (h1 : 32 ≤ c.toNat) (h2 : c.toNat ≤ 126)
    (h3 : c ≠ squote) (h4 : c ≠ '\\') :
    pyEscapeChar squote c = String.singleton c := by
  have hn : c ≠ '\n' := by
    intro he; rw [he] at h1; exact absurd h1 (by decide)
  have hr : c ≠ '\r' := by
    intro he; rw [he] at h1; exact absurd h1 (by decide)
  have ht : c ≠ '\t' := by
    intro he; rw [he] at h1; exact absurd h1 (by decide)
  have hnum : (decide (c.toNat < 32) || (c.toNat == 127)) = false := by
    simp only [Bool.or_eq_false_iff, decide_eq_false_iff_not, Nat.not_lt,
      beq_eq_false_iff_ne, ne_eq]
    omega
  simp [pyEscapeChar, h3, h4, hn, hr, ht, hnum]

/-- A list of printable ASCII characters without apostrophe or
backslash escapes to itself. -/
lemma pyEscaped_plain (l : List Char)
    (h : ∀ c ∈ l, 32 ≤ c.toNat ∧ c.toNat ≤ 126 ∧ c ≠ squote ∧ c ≠ '\\') :
    pyEscaped squote l = String.mk l := by
  induction l with
  | nil => rfl
  | cons c cs ih =>
    obtain ⟨h1, h2, h3, h4⟩ := h c (List.mem_cons_self c cs)
    rw [pyEscaped, pyEscapeChar_plain c h1 h2 h3 h4,
      ih fun x hx => h x (List.mem_cons_of_mem c hx)]
    rfl

/-- Python repr of a printable ASCII string without apostrophe or
backslash is the string between two apostrophes. -/
lemma pyRepr_plain (s : String)
    (h : ∀ c ∈ s.data, 32 ≤ c.toNat ∧ c.toNat ≤ 126 ∧ c ≠ squote ∧ c ≠ '\\') :
    pyRepr s = String.singleton squote ++ s ++ String.singleton squote := by
  have hcont : s.data.contains squote = false := by
    cases hc : s.data.contains squote
    · rfl
    · have hmem : squote ∈ s.data := by simpa using hc
      exact absurd rfl (h squote hmem).2.2.1
  have hs : String.mk s.data = s := rfl
  rw [pyRepr, hcont]
  simp only [Bool.false_and, Bool.false_eq_true, if_false]
  rw [pyEscaped_plain s.data h, hs]

/-- The description built by the code agrees with the single-quote
enclosure the spec states whenever the raw text is printable ASCII
without apostrophe or backslash. -/
lemma violation_description_plain (s : String)
    (h : ∀ c ∈ s.data, 32 ≤ c.toNat ∧ c.toNat ≤ 126 ∧ c ≠ squote ∧ c ≠ '\\') :
    violation_description s = spec_description s := by
  rw [violation_description, spec_description, pyRepr_plain s h]
  simp [String.append_assoc]

/-- Any list the scanner returns is exactly its violation buffer. -/
lemma lint_some_inv {ta : List AliasInfo} {sa : List String}
    {refs : List BaseSegment} {ca : List ColumnAliasInfo}
    {uc : List String} {dn : Option String} {ps : Option BaseSegment}
    {l : List LintResult}
    (hl : lint_references_and_aliases ta sa refs ca uc dn ps = some l) :
    l = scan_violations (ta.map AliasInfo.ref_str) refs ca uc dn := by
  by_cases hgate : ta.length ≤ 1
  · simp [lint_references_and_aliases, hgate] at hl
  · rw [lint_past_gate ta sa refs ca uc dn ps (by omega)] at hl
    by_cases hz :
        scan_violations (ta.map AliasInfo.ref_str) refs ca uc dn = []
    · simp [hz] at hl
    · rw [if_neg hz] at hl
      exact (Option.some_injective _ hl).symm

/-- C6 counterexample: for the raw text a-apostrophe-b the Python repr
conversion quotes with double quotes, so the description is not the raw
text enclosed in single quotes. -/
theorem claim_C6_counterexample :
    lint_references_and_aliases [⟨"t1"⟩, ⟨"t2"⟩] []
        [⟨0, "a" ++ String.singleton squote ++ "b", "unqualified"⟩] [] []
        none none =
      some [⟨⟨0, "a" ++ String.singleton squote ++ "b", "unqualified"⟩,
        violation_description ("a" ++ String.singleton squote ++ "b")⟩] ∧
    violation_description ("a" ++ String.singleton squote ++ "b") ≠
      spec_description ("a" ++ String.singleton squote ++ "b") := by
  exact ⟨rfl, by decide⟩

/-- C6 as amended: every violation the scanner returns is anchored at
one of the supplied references and carries the Python repr of its raw
text in the description; this is the raw text enclosed in single
quotes whenever the raw text is printable ASCII without apostrophe or
backslash, but repr switches quotes or escapes otherwise. -/
theorem claim_C6 (ta : List AliasInfo) (sa : List String)
    (refs : List BaseSegment) (ca : List ColumnAliasInfo) (uc : List String)
    (dn : Option String) (ps : Option BaseSegment) (l : List LintResult)
    (hl : lint_references_and_aliases ta sa refs ca uc dn ps = some l) :
    ∀ v ∈ l, v.anchor ∈ refs ∧
      v.description = violation_description v.anchor.raw ∧
      ((∀ c ∈ v.anchor.raw.data,
          32 ≤ c.toNat ∧ c.toNat ≤ 126 ∧ c ≠ squote ∧ c ≠ '\\') →
        v.description = spec_description v.anchor.raw) := by
  intro v hv
  rw [lint_some_inv hl] at hv
  obtain ⟨r, hr, _, rfl⟩ := mem_scan_violations.mp hv
  exact ⟨hr, rfl, fun hplain => violation_description_plain r.raw hplain⟩

/-- Witness for C6 at a concrete input: the violation for the plain raw
text "b" carries exactly the single-quote description. -/
theorem claim_C6_witness :
    violation_description "b" = spec_description "b" := by
  have h := claim_C6 [⟨"t1"⟩, ⟨"t2"⟩] [] [⟨0, "b", "unqualified"⟩] [] [] none
    none [⟨⟨0, "b", "unqualified"⟩, violation_description "b"⟩] rfl
    ⟨⟨0, "b", "unqualified"⟩, violation_description "b"⟩ (by simp)
  exact h.2.2 (by decide)

/-- C8 counterexample: with two table aliases, one unqualified
reference and an empty column-alias list the scanner returns a
singleton violation list, not none. -/
theorem claim_C8_counterexample :
    lint_references_and_aliases [⟨"t1"⟩, ⟨"t2"⟩] [] [⟨0, "a", "unqualified"⟩]
        [] [] none none =
      some [⟨⟨0, "a", "unqualified"⟩, violation_description "a"⟩] ∧
    lint_references_and_aliases [⟨"t1"⟩, ⟨"t2"⟩] [] [⟨0, "a", "unqualified"⟩]
        [] [] none none ≠ none := ⟨rfl, by decide⟩

/-- C8 as amended: past the single-source gate the scanner returns none
exactly when the violation buffer is empty and returns the buffer
itself otherwise; an empty references list always yields none, and an
empty column-alias list is simply handled by the same rule (it forces
no particular result). -/
theorem claim_C8 (ta : List AliasInfo) (sa : List String)
    (refs : List BaseSegment) (ca : List ColumnAliasInfo) (uc : List String)
    (dn : Option String) (ps : Option BaseSegment) :
    (1 < ta.length →
      ((lint_references_and_aliases ta sa refs ca uc dn ps = none ↔
          scan_violations (ta.map AliasInfo.ref_str) refs ca uc dn = []) ∧
        (scan_violations (ta.map AliasInfo.ref_str) refs ca uc dn ≠ [] →
          lint_references_and_aliases ta sa refs ca uc dn ps =
            some (scan_violations (ta.map AliasInfo.ref_str) refs ca uc
              dn)))) ∧
    (refs = [] → lint_references_and_aliases ta sa refs ca uc dn ps = none) := by
  constructor
  · intro hgate
    rw [lint_past_gate ta sa refs ca uc dn ps hgate]
    constructor
    · by_cases hz :
          scan_violations (ta.map AliasInfo.ref_str) refs ca uc dn = [] <;>
        simp [hz]
    · intro hz
      rw [if_neg hz]
  · intro hrefs
    subst hrefs
    by_cases hgate : ta.length ≤ 1
    · simp [lint_references_and_aliases, hgate]
    · rw [lint_past_gate ta sa [] ca uc dn ps (by omega)]
      simp [scan_violations]

/-- Witness for C8 at a concrete input: two table aliases and no
references yield none. -/
theorem claim_C8_witness :
    lint_references_and_aliases [⟨"t1"⟩, ⟨"t2"⟩] [] [] [] [] none none =
      none :=
  (claim_C8 [⟨"t1"⟩, ⟨"t2"⟩] [] [] [] [] none none).2 rfl

/-- A filterMap against a pointwise-smaller partial function yields a
sublist. -/
lemma filterMap_sublist_of_imp {α β : Type} (f g : α → Option β)
    (l : List α) (h : ∀ a b, f a = some b → g a = some b) :
    (l.filterMap f).Sublist (l.filterMap g) := by
  induction l with
  | nil => simp
  | cons a as ih =>
    rw [List.filterMap_cons, List.filterMap_cons]
    cases hf : f a with
    | none =>
      cases hg : g a with
      | none => exact ih
      | some b => exact List.Sublist.cons b ih
    | some b =>
      rw [h a b hf]
      exact List.Sublist.cons₂ b ih

/-- Growing the USING columns preserves classifier acceptance. -/
lemma is_qualified_mono_using {r : BaseSegment} {tan can uc uc2 : List String}
    {dn : Option String} (hsub : ∀ u ∈ uc, u ∈ uc2)
    (h : is_qualified_reference r tan can uc dn = true) :
    is_qualified_reference r tan can uc2 dn = true := by
  rcases (is_qualified_iff r tan can uc dn).mp h with h' | h' | h' | h' <;>
    exact (is_qualified_iff r tan can uc2 dn).mpr
      (by first
        | exact Or.inl h'
        | exact Or.inr (Or.inl h')
        | exact Or.inr (Or.inr (Or.inl (hsub _ h')))
        | exact Or.inr (Or.inr (Or.inr h')))

/-- Appending one more column alias can only extend the per-reference
alias-name list. -/
lemma col_alias_names_for_append (r : BaseSegment)
    (ca : List ColumnAliasInfo) (c : ColumnAliasInfo) :
    col_alias_names_for r (ca ++ [c]) =
      col_alias_names_for r ca ++ col_alias_names_for r [c] := by
  simp [col_alias_names_for, List.filter_append]

/-- Appending one more column alias preserves classifier acceptance. -/
lemma is_qualified_mono_colalias {r : BaseSegment} {tan uc : List String}
    {dn : Option String} {ca : List ColumnAliasInfo} {c : ColumnAliasInfo}
    (h : is_qualified_reference r tan (col_alias_names_for r ca) uc dn =
      true) :
    is_qualified_reference r tan (col_alias_names_for r (ca ++ [c])) uc dn =
      true := by
  rcases (is_qualified_iff r tan _ uc dn).mp h with h' | h' | h' | h' <;>
    refine (is_qualified_iff r tan _ uc dn).mpr ?_
  · exact Or.inl h'
  · refine Or.inr (Or.inl ?_)
    rw [col_alias_names_for_append]
    exact List.mem_append_left _ h'
  · exact Or.inr (Or.inr (Or.inl h'))
  · exact Or.inr (Or.inr (Or.inr h'))

/-- The scanner result as a plain list, with none read as the empty
list. -/
lemma lint_getD (ta : List AliasInfo) (sa : List String)
    (refs : List BaseSegment) (ca : List ColumnAliasInfo) (uc : List String)
    (dn : Option String) (ps : Option BaseSegment) :
    (lint_references_and_aliases ta sa refs ca uc dn ps).getD [] =
      if ta.length ≤ 1 then []
      else scan_violations (ta.map AliasInfo.ref_str) refs ca uc dn := by
  by_cases hgate : ta.length ≤ 1
  · simp [lint_references_and_aliases, hgate]
  · rw [if_neg hgate, lint_past_gate ta sa refs ca uc dn ps (by omega)]
    by_cases hz :
        scan_violations (ta.map AliasInfo.ref_str) refs ca uc dn = []
    · simp [hz]
    · rw [if_neg hz]
      rfl

/-- C10: enlarging the USING columns, or appending a column alias,
never creates a violation: the violation list of the enlarged input is
an order-preserving sublist of the original one (none read as the
empty list).  For the appended alias no side condition is needed: for
each reference the new alias name is either added to the qualifying
names or filtered out, so in particular an alias whose reference
segments exclude a given reference only helps qualify it. -/
theorem claim_C10 (ta : List AliasInfo) (sa : List String)
    (refs : List BaseSegment) (ca : List ColumnAliasInfo)
    (uc uc2 : List String) (dn : Option String) (ps : Option BaseSegment)
    (c : ColumnAliasInfo) :
    ((∀ u ∈ uc, u ∈ uc2) →
      ((lint_references_and_aliases ta sa refs ca uc2 dn ps).getD
          []).Sublist
        ((lint_references_and_aliases ta sa refs ca uc dn ps).getD [])) ∧
    ((lint_references_and_aliases ta sa refs (ca ++ [c]) uc dn ps).getD
        []).Sublist
      ((lint_references_and_aliases ta sa refs ca uc dn ps).getD []) := by
  rw [lint_getD, lint_getD, lint_getD]
  by_cases hgate : ta.length ≤ 1
  · simp [hgate]
  · rw [if_neg hgate, if_neg hgate, if_neg hgate]
    constructor
    · intro hsub
      simp only [scan_violations]
      refine filterMap_sublist_of_imp _ _ refs ?_
      intro r v hf
      by_cases hq2 : is_qualified_reference r (ta.map AliasInfo.ref_str)
          (col_alias_names_for r ca) uc2 dn
      · simp [hq2] at hf
      · rw [if_neg hq2] at hf
        have hq : ¬ is_qualified_reference r (ta.map AliasInfo.ref_str)
            (col_alias_names_for r ca) uc dn = true :=
          fun h => hq2 (is_qualified_mono_using hsub h)
        rw [if_neg hq]
        exact hf
    · simp only [scan_violations]
      refine filterMap_sublist_of_imp _ _ refs ?_
      intro r v hf
      by_cases hq2 : is_qualified_reference r (ta.map AliasInfo.ref_str)
          (col_alias_names_for r (ca ++ [c])) uc dn
      · simp [hq2] at hf
      · rw [if_neg hq2] at hf
        have hq : ¬ is_qualified_reference r (ta.map AliasInfo.ref_str)
            (col_alias_names_for r ca) uc dn = true :=
          fun h => hq2 (is_qualified_mono_colalias h)
        rw [if_neg hq]
        exact hf

/-- Witness for C10 at a concrete input: adding the USING column "a"
removes the only violation, leaving the empty sublist. -/
theorem claim_C10_witness :
    ((lint_references_and_aliases [⟨"t1"⟩, ⟨"t2"⟩] []
          [⟨0, "a", "unqualified"⟩] [] ["a"] none none).getD []).Sublist
      ((lint_references_and_aliases [⟨"t1"⟩, ⟨"t2"⟩] []
          [⟨0, "a", "unqualified"⟩] [] [] none none).getD []) :=
  (claim_C10 [⟨"t1"⟩, ⟨"t2"⟩] [] [⟨0, "a", "unqualified"⟩] [] [] ["a"] none
      none ⟨"z", []⟩).1 (by simp)

end L027
